import Mathlib

/-!
# Verification of `neuraxle/hyperparams/distributions.py`

A shallow embedding of the hyperparameter-distribution classes and their
narrowing algebra.  Python floats are modelled as exact rationals (`ℚ`)
throughout the narrowing bookkeeping; the `LogUniform` family, whose
constructor applies `math.log2`, is modelled over the reals (`ℝ`) further
below.  Stateful Python objects are modelled as immutable values: each
distribution instance carries its parameters, the lazily-initialized
`kept_space_ratio_trace` attribute (`none` models "attribute not set yet"),
and the `original_hp` back-reference.
-/

set_option autoImplicit false

namespace Neuraxle

/-- The only Python exception relevant here: `Normal.narrow_space_from_best_guess`
evaluates `self.mean * kept_space_ratio` where `self.mean` is a one-element
tuple (the constructor line reads `self.mean = mean,`), and multiplying a
tuple by a float raises `TypeError`. -/
inductive PyError : Type where
  | typeError
deriving DecidableEq, Repr

/-- Python 3 `round` to the nearest integer, ties going to the even integer
(banker's rounding), as used by `RandInt.narrow_space_from_best_guess` and
`Quantized.rvs`. -/
def pyRound (q : ℚ) : ℤ :=
  let f : ℤ := ⌊q⌋
  let frac : ℚ := q - f
  if frac < 1/2 then f
  else if 1/2 < frac then f + 1
  else if f % 2 = 0 then f else f + 1

mutual
/-- The per-family parameters of a distribution instance, one constructor per
class of `distributions.py` (the `LogUniform` class, whose parameters are
produced by `math.log2`, is modelled separately over `ℝ`).

Note `normal` stores its mean as a *list* of rationals: the source line
`self.mean = mean,` has a trailing comma, so `Normal.__init__` stores the
one-element tuple `(mean,)` rather than the scalar. -/
inductive DistParams : Type where
  | fixed (value : ℚ)
  | boolean
  | choice (choice_list : List ℚ)
  | uniform (min_included max_included : ℚ)
  | randInt (min_included max_included : ℤ)
  | normal (mean : List ℚ) (std : ℚ) (hard_clip_min hard_clip_max : Option ℚ)
  | logNormal (log2_space_mean log2_space_std : ℚ)
      (hard_clip_min hard_clip_max : Option ℚ)
  | quantized (hd : Dist)

/-- A distribution object: its family parameters plus the two cross-cutting
attributes managed by `was_narrowed_from` / `unnarrow`.
`trace = none` models a missing `kept_space_ratio_trace` attribute and
`original = none` a missing `original_hp` attribute. -/
inductive Dist : Type where
  | mk (params : DistParams) (trace : Option ℚ) (original : Option Dist)
end

def Dist.params : Dist → DistParams
  | .mk p _ _ => p

def Dist.trace : Dist → Option ℚ
  | .mk _ t _ => t

def Dist.original : Dist → Option Dist
  | .mk _ _ o => o

/-- `HyperparameterDistribution.get_current_narrowing_value`: lazily
initializes `kept_space_ratio_trace` to `1.0` and returns it. -/
def Dist.get_current_narrowing_value (d : Dist) : ℚ :=
  d.trace.getD 1

/-- `HyperparameterDistribution.unnarrow`: the original distribution before
narrowing, or `self` if the distribution is virgin.  `copy.copy` of the
stored original is modelled as the (value-equal) stored original itself. -/
def Dist.unnarrow (d : Dist) : Dist :=
  match d with
  | .mk _ _ none => d
  | .mk _ _ (some o) => o

/-- `HyperparameterDistribution.was_narrowed_from`, called on `self` (the
freshly built or copied result): lazily initializes the trace to `1.0`,
multiplies it by `kept_space_ratio`, and stores `original_hp.unnarrow()`. -/
def Dist.was_narrowed_from (self : Dist) (kept_space_ratio : ℚ)
    (original_hp : Dist) : Dist :=
  .mk self.params (some (self.trace.getD 1 * kept_space_ratio))
    (some original_hp.unnarrow)

/-- The base-class `HyperparameterDistribution.narrow_space_from_best_guess`:
`FixedHyperparameter(best_guess).was_narrowed_from(kept_space_ratio, self)`.
Used directly by `FixedHyperparameter` and `Boolean` (no override), and as
the collapse case of every override. -/
def Dist.base_narrow (self : Dist) (best_guess kept_space_ratio : ℚ) : Dist :=
  Dist.was_narrowed_from (.mk (.fixed best_guess) none none) kept_space_ratio self

/-- `Normal.__init__ (mean, std, hard_clip_min, hard_clip_max)`: the source
stores `self.mean = mean,` — a one-element tuple — hence the singleton list. -/
def Normal.init (mean std : ℚ) (hard_clip_min hard_clip_max : Option ℚ) :
    DistParams :=
  .normal [mean] std hard_clip_min hard_clip_max

/-- The default `kept_space_ratio` of `Choice.narrow_space_from_best_guess`
(and of the base-class method). -/
def Choice.default_kept_space_ratio : ℚ := 0

/-- The per-family `narrow_space_from_best_guess` methods, dispatched on the
family of `d`.  Returns `Except` because `Normal`'s override always raises
`TypeError` (see `PyError`): it evaluates `self.mean * kept_space_ratio`
with `self.mean` a one-element tuple. -/
def Dist.narrow_space_from_best_guess :
    Dist → ℚ → ℚ → Except PyError Dist
  | d@(.mk (.fixed _) _ _), g, r => .ok (d.base_narrow g r)
  | d@(.mk .boolean _ _), g, r => .ok (d.base_narrow g r)
  | d@(.mk (.choice l) _ _), g, r =>
      if l.length = 0 ∨ l.length = 1 then .ok (d.base_narrow g r)
      else
        let new_narrowing := d.get_current_narrowing_value * r
        let min_threshold_for_fixed : ℚ := 1 / (l.length : ℚ)
        if new_narrowing ≤ min_threshold_for_fixed then .ok (d.base_narrow g r)
        else .ok (d.was_narrowed_from r d)
  | d@(.mk (.uniform mn mx) _ _), g, r =>
      let lost_space_ratio := 1 - r
      let new_min_included := mn * r + g * lost_space_ratio
      let new_max_included := mx * r + g * lost_space_ratio
      if new_max_included ≤ new_min_included ∨ r = 0 then .ok (d.base_narrow g r)
      else .ok (Dist.was_narrowed_from
        (.mk (.uniform new_min_included new_max_included) none none) r d)
  | d@(.mk (.randInt mn mx) _ _), g, r =>
      let lost_space_ratio := 1 - r
      let new_min_included := pyRound ((mn : ℚ) * r + g * lost_space_ratio)
      let new_max_included := pyRound ((mx : ℚ) * r + g * lost_space_ratio)
      if new_max_included ≤ new_min_included ∨ r = 0 then .ok (d.base_narrow g r)
      else .ok (Dist.was_narrowed_from
        (.mk (.randInt new_min_included new_max_included) none none) r d)
  | .mk (.normal _ _ _ _) _ _, _, _ =>
      .error .typeError
  | d@(.mk (.logNormal m s cmin cmax) _ _), g, r =>
      let lost_space_ratio := 1 - r
      let new_mean := m * r + g * lost_space_ratio
      let new_std := s * r
      if new_std ≤ 0 then .ok (d.base_narrow g r)
      else .ok (Dist.was_narrowed_from
        (.mk (Normal.init new_mean new_std cmin cmax) none none) r d)
  | d@(.mk (.quantized hd) _ _), g, r =>
      match hd.narrow_space_from_best_guess g r with
      | .error e => .error e
      | .ok nhd => .ok (Dist.was_narrowed_from
          (.mk (.quantized nhd) none none) r d)

/-- The branch condition selecting `Choice.narrow_space_from_best_guess`'s
`copy.copy(self)` path (the only non-collapsing categorical outcome):
a list of two or more candidates whose updated narrowing value stays above
`1 / len(choice_list)`. -/
def Dist.choiceCopyPath (d : Dist) (r : ℚ) : Bool :=
  match d with
  | .mk (.choice l) t _ =>
      decide (¬(l.length = 0 ∨ l.length = 1)
        ∧ ¬(t.getD 1 * r ≤ 1 / (l.length : ℚ)))
  | _ => false

/-! ## Sampling (`rvs`)

Sampling consults the process-wide random generator; each `rvs` method is
modelled as a function of its distribution parameters and of the random
draw(s) the Python library call returns.  The hypotheses of the theorems
below state the library's guarantees on those draws
(`random.random() ∈ [0,1)`, `random.randint(a,b) ∈ [a,b]`,
`random.choice(l)` an element of `l`). -/

/-- `FixedHyperparameter.rvs`: the value given at creation. -/
def FixedHyperparameter.rvs (value : ℚ) : ℚ := value

/-- `Uniform.rvs`: `random.random() * (max_included - min_included) +
min_included`, where `u` is the `random.random()` draw. -/
def Uniform.rvs (min_included max_included : ℚ) (u : ℚ) : ℚ :=
  u * (max_included - min_included) + min_included

/-- `RandInt.rvs`: `random.randint(min_included, max_included)`, where `k` is
the integer the library call returns. -/
def RandInt.rvs (min_included max_included : ℤ) (k : ℤ) : ℤ := k

/-- `Choice.rvs`: `random.choice(choice_list)`, where `i` is the index the
library call picks. -/
def Choice.rvs (choice_list : List ℚ) (i : Fin choice_list.length) : ℚ :=
  choice_list.get i

/-- `Quantized.rvs`: `round(self.hd.rvs())`, as a function of the wrapped
distribution's sample. -/
def Quantized.rvs (inner_sample : ℚ) : ℤ := pyRound inner_sample

/-! ## The `LogUniform` family

`LogUniform.__init__` stores `math.log2` of its arguments, so its attributes
are modelled over `ℝ`. -/

/-- A `LogUniform` instance's attributes: `self.log2_min_included` and
`self.log2_max_included`, each set to `math.log2` of a constructor
argument. -/
structure LogUniform : Type where
  log2_min_included : ℝ
  log2_max_included : ℝ

/-- `LogUniform.__init__ (min_included, max_included)`. -/
noncomputable def LogUniform.init (min_included max_included : ℝ) : LogUniform :=
  { log2_min_included := Real.logb 2 min_included
    log2_max_included := Real.logb 2 max_included }

/-- `sys.float_info.epsilon` is exactly `2 ** (-52)`. -/
noncomputable def float_info_epsilon : ℝ := 2 ^ (-52 : ℤ)

/-- `LogUniform.rvs`: `2 ** random.uniform(log2_min_included,
log2_max_included)`; `t ∈ [0, 1]` positions the `random.uniform` draw
`a + (b - a) * t` inside its interval. -/
noncomputable def LogUniform.rvs (s : LogUniform) (t : ℝ) : ℝ :=
  2 ^ (s.log2_min_included + (s.log2_max_included - s.log2_min_included) * t)

/-- The two outcomes of `LogUniform.narrow_space_from_best_guess`: collapse
to `FixedHyperparameter(best_guess)`, or a freshly constructed `LogUniform`
(the trace bookkeeping `was_narrowed_from` applies is family-independent and
is modelled once on `Dist`). -/
inductive LogUniformNarrowed : Type where
  | collapsed (best_guess : ℝ)
  | narrowed (s : LogUniform)

/-- `LogUniform.narrow_space_from_best_guess`: interpolates the stored log2
attributes toward `best_guess`, floors the lower value at
`sys.float_info.epsilon`, and on the non-collapsed path passes both values
to `LogUniform.__init__` (which takes `log2` of them again). -/
noncomputable def LogUniform.narrow_space_from_best_guess
    (s : LogUniform) (best_guess kept_space_ratio : ℝ) : LogUniformNarrowed :=
  let lost_space_ratio := 1 - kept_space_ratio
  let new_min_included :=
    max (s.log2_min_included * kept_space_ratio + best_guess * lost_space_ratio)
      float_info_epsilon
  let new_max_included :=
    s.log2_max_included * kept_space_ratio + best_guess * lost_space_ratio
  if new_max_included ≤ new_min_included ∨ kept_space_ratio = 0 then
    .collapsed best_guess
  else
    .narrowed (LogUniform.init new_min_included new_max_included)

/-! ## Basic bounds on `pyRound` -/

theorem floor_le_pyRound (q : ℚ) : ⌊q⌋ ≤ pyRound q := by
  simp only [pyRound]
  split_ifs <;> omega

theorem pyRound_le_floor_add_one (q : ℚ) : pyRound q ≤ ⌊q⌋ + 1 := by
  simp only [pyRound]
  split_ifs <;> omega

/-! ## Claims -/

/-- C7: `Uniform(0.0, 10.0).narrow_space_from_best_guess(5.0, 0.5)` returns a
new `Uniform` with `min_included = 2.5` and `max_included = 7.5`, and
`Uniform(0.0, 10.0).narrow_space_from_best_guess(5.0, 0.0)` returns
`FixedHyperparameter(5.0)` (each result carrying the narrowing trace and the
back-reference to the original Uniform). -/
theorem uniform_narrow_concrete :
    (Dist.narrow_space_from_best_guess (.mk (.uniform 0 10) none none) 5 (1/2)
       = .ok (.mk (.uniform (5/2) (15/2)) (some (1/2)) (some (.mk (.uniform 0 10) none none))))
    ∧ (Dist.narrow_space_from_best_guess (.mk (.uniform 0 10) none none) 5 0
       = .ok (.mk (.fixed 5) (some 0) (some (.mk (.uniform 0 10) none none)))) := by
  constructor <;>
    simp [Dist.narrow_space_from_best_guess, Dist.was_narrowed_from, Dist.base_narrow,
      Dist.unnarrow, Dist.params, Dist.trace] <;>
    norm_num

/-- C1: evaluating `Normal(mean=0.0, std=1.0).narrow_space_from_best_guess(
best_guess=1.0, kept_space_ratio=0.5)` raises `TypeError` instead of
returning `Normal(mean=0.5, std=0.5)`: the constructor line
`self.mean = mean,` stores the one-element tuple `(0.0,)`, and the method
then evaluates `self.mean * kept_space_ratio`, an unsupported
tuple-times-float product. -/
theorem normal_narrow_raises_typeError :
    Dist.narrow_space_from_best_guess (.mk (Normal.init 0 1 none none) none none) 1 (1/2)
      = .error .typeError := by
  simp [Dist.narrow_space_from_best_guess, Normal.init]

/-- C3 counterexample: `FixedHyperparameter(3).narrow_space_from_best_guess(
7, 0.5)` returns `FixedHyperparameter(7)` — the *best guess*, not the stored
value — so sampling the narrowed result yields `7 ≠ 3`, refuting the claim
that narrowing a Fixed wraps the same stored value. -/
theorem fixed_narrow_wraps_best_guess_cex :
    Dist.narrow_space_from_best_guess (.mk (.fixed 3) none none) 7 (1/2)
      = .ok (.mk (.fixed 7) (some (1/2)) (some (.mk (.fixed 3) none none)))
    ∧ FixedHyperparameter.rvs 7 ≠ (3 : ℚ) := by
  refine ⟨?_, by decide⟩
  simp [Dist.narrow_space_from_best_guess, Dist.was_narrowed_from, Dist.base_narrow,
    Dist.unnarrow, Dist.params, Dist.trace]

/-- C3 amended: for every `FixedHyperparameter` (it does not override the
base-class method), `narrow_space_from_best_guess(g, r)` returns
`FixedHyperparameter(g)` — wrapping the best guess, which coincides with the
stored value only when `g = v` — with trace `r` and the back-reference set;
sampling the narrowed result returns `g`. -/
theorem fixed_narrow_returns_best_guess (v g r : ℚ) (tr : Option ℚ) (org : Option Dist) :
    Dist.narrow_space_from_best_guess (.mk (.fixed v) tr org) g r
      = .ok (.mk (.fixed g) (some r) (some (Dist.unnarrow (.mk (.fixed v) tr org))))
    ∧ FixedHyperparameter.rvs g = g := by
  refine ⟨?_, rfl⟩
  simp [Dist.narrow_space_from_best_guess, Dist.was_narrowed_from, Dist.base_narrow,
    Dist.params, Dist.trace]

/-- C10: for every `Choice` (any candidate-list length, any pre-existing
trace) and every best guess `g`, narrowing with the default
`kept_space_ratio = 0.0` returns `FixedHyperparameter(g)`: either the list
has at most one candidate, or the updated narrowing value is
`trace * 0 = 0 ≤ 1/len(choice_list)`, so the collapse branch is always
taken. -/
theorem choice_narrow_default_collapses (l : List ℚ) (tr : Option ℚ) (org : Option Dist)
    (g : ℚ) :
    Dist.narrow_space_from_best_guess (.mk (.choice l) tr org) g
        Choice.default_kept_space_ratio
      = .ok (.mk (.fixed g) (some 0) (some (Dist.unnarrow (.mk (.choice l) tr org)))) := by
  simp only [Dist.narrow_space_from_best_guess, Choice.default_kept_space_ratio]
  split_ifs with h1 h2
  · simp [Dist.base_narrow, Dist.was_narrowed_from, Dist.params, Dist.trace]
  · simp [Dist.base_narrow, Dist.was_narrowed_from, Dist.params, Dist.trace]
  · exfalso
    apply h2
    have hpos : 0 < l.length := by omega
    simp only [Dist.get_current_narrowing_value, mul_zero]
    positivity

/-- C5: `Choice.narrow_space_from_best_guess(g, r)` collapses to
`FixedHyperparameter(g)` exactly when the candidate list has at most one
element or the updated narrowing value (current narrowing value times `r`)
is at or below `1/len(choice_list)`; otherwise it returns a shallow copy of
the `Choice` with the same, un-shrunk candidate list (trace multiplied by
`r`, back-reference set). -/
theorem choice_narrow_collapse_iff (l : List ℚ) (tr : Option ℚ) (org : Option Dist)
    (g r : ℚ) :
    Dist.narrow_space_from_best_guess (.mk (.choice l) tr org) g r
      = .ok (if l.length ≤ 1
            ∨ (Dist.mk (.choice l) tr org).get_current_narrowing_value * r
                ≤ 1 / (l.length : ℚ)
          then .mk (.fixed g) (some r) (some (Dist.unnarrow (.mk (.choice l) tr org)))
          else .mk (.choice l) (some (tr.getD 1 * r))
            (some (Dist.unnarrow (.mk (.choice l) tr org)))) := by
  simp only [Dist.narrow_space_from_best_guess]
  split_ifs with h1 h2 h3 h4 h5
  · simp [Dist.base_narrow, Dist.was_narrowed_from, Dist.params, Dist.trace]
  · exact absurd (Or.inl (by omega)) h2
  · simp [Dist.base_narrow, Dist.was_narrowed_from, Dist.params, Dist.trace]
  · exact absurd (Or.inr h3) h4
  · rcases h5 with h5 | h5
    · exact absurd (by omega : l.length = 0 ∨ l.length = 1) h1
    · exact absurd h5 h3
  · simp [Dist.was_narrowed_from, Dist.params, Dist.trace]

/-- C2 counterexample: narrowing `Uniform(0, 10)` twice with
`kept_space_ratio = 0.5` yields a result whose
`get_current_narrowing_value` is `0.5`, not the claimed `0.25`
(= caller's cumulative ratio times `0.5`): the second narrow builds a fresh
`Uniform` whose trace restarts at `1.0 * 0.5`. -/
theorem uniform_narrow_trace_restarts_cex :
    Dist.narrow_space_from_best_guess (.mk (.uniform 0 10) none none) 5 (1/2)
      = .ok (.mk (.uniform (5/2) (15/2)) (some (1/2)) (some (.mk (.uniform 0 10) none none)))
    ∧ Dist.narrow_space_from_best_guess
        (.mk (.uniform (5/2) (15/2)) (some (1/2)) (some (.mk (.uniform 0 10) none none)))
        5 (1/2)
      = .ok (.mk (.uniform (15/4) (25/4)) (some (1/2)) (some (.mk (.uniform 0 10) none none)))
    ∧ Dist.get_current_narrowing_value
        (.mk (.uniform (15/4) (25/4)) (some (1/2)) (some (.mk (.uniform 0 10) none none)))
      = 1/2
    ∧ Dist.get_current_narrowing_value
          (.mk (.uniform (5/2) (15/2)) (some (1/2)) (some (.mk (.uniform 0 10) none none)))
        * (1/2) = 1/4
    ∧ (1/2 : ℚ) ≠ 1/4 := by
  refine ⟨?_, ?_,
    by simp [Dist.get_current_narrowing_value, Dist.trace],
    by simp [Dist.get_current_narrowing_value, Dist.trace]; norm_num,
    by norm_num⟩ <;>
  · simp [Dist.narrow_space_from_best_guess, Dist.was_narrowed_from, Dist.base_narrow,
      Dist.unnarrow, Dist.params, Dist.trace]
    norm_num

/-- C2 amended: whenever `narrow_space_from_best_guess` returns, the
returned instance's `get_current_narrowing_value` equals `kept_space_ratio`
(the trace of the freshly constructed result restarts at
`1.0 * kept_space_ratio`), except on `Choice`'s non-collapsing path, where
the shallow copy inherits the caller's trace and the result's value is the
caller's current narrowing value times `kept_space_ratio`. -/
theorem narrow_result_trace (d : Dist) (g r : ℚ) :
    (Dist.narrow_space_from_best_guess d g r).toOption.map Dist.get_current_narrowing_value
      = (Dist.narrow_space_from_best_guess d g r).toOption.map
          (fun _ => if d.choiceCopyPath r then d.get_current_narrowing_value * r else r) := by
  obtain ⟨p, t, o⟩ := d
  cases p with
  | fixed v =>
      simp [Dist.narrow_space_from_best_guess, Dist.choiceCopyPath, Dist.base_narrow,
        Dist.was_narrowed_from, Dist.get_current_narrowing_value, Dist.params, Dist.trace,
        Except.toOption]
  | boolean =>
      simp [Dist.narrow_space_from_best_guess, Dist.choiceCopyPath, Dist.base_narrow,
        Dist.was_narrowed_from, Dist.get_current_narrowing_value, Dist.params, Dist.trace,
        Except.toOption]
  | choice l =>
      by_cases hA : l.length = 0 ∨ l.length = 1
      · have hp : (Dist.mk (.choice l) t o).choiceCopyPath r = false := by
          simp only [Dist.choiceCopyPath, decide_eq_false_iff_not, not_and, not_not]
          intro hcon
          exact absurd hA hcon
        simp only [Dist.narrow_space_from_best_guess, if_pos hA, hp, Bool.false_eq_true,
          if_false]
        simp [Dist.base_narrow, Dist.was_narrowed_from, Dist.get_current_narrowing_value,
          Dist.params, Dist.trace, Except.toOption]
      · by_cases hB : (Dist.mk (.choice l) t o).get_current_narrowing_value * r
            ≤ 1 / (l.length : ℚ)
        · have hB' : t.getD 1 * r ≤ 1 / (l.length : ℚ) := by
            simpa [Dist.get_current_narrowing_value, Dist.trace] using hB
          have hp : (Dist.mk (.choice l) t o).choiceCopyPath r = false := by
            simp only [Dist.choiceCopyPath, decide_eq_false_iff_not, not_and, not_not]
            intro _
            exact hB'
          simp only [Dist.narrow_space_from_best_guess, if_neg hA]
          rw [if_pos hB]
          simp [hp, Dist.base_narrow, Dist.was_narrowed_from,
            Dist.get_current_narrowing_value, Dist.params, Dist.trace, Except.toOption]
        · have hB' : ¬ t.getD 1 * r ≤ 1 / (l.length : ℚ) := by
            simpa [Dist.get_current_narrowing_value, Dist.trace] using hB
          have hp : (Dist.mk (.choice l) t o).choiceCopyPath r = true := by
            simp only [Dist.choiceCopyPath, decide_eq_true_eq]
            exact ⟨hA, hB'⟩
          simp only [Dist.narrow_space_from_best_guess, if_neg hA]
          rw [if_neg hB]
          simp [hp, Dist.was_narrowed_from, Dist.get_current_narrowing_value,
            Dist.params, Dist.trace, Except.toOption]
  | uniform mn mx =>
      simp only [Dist.narrow_space_from_best_guess, Dist.choiceCopyPath,
        Bool.false_eq_true, if_false]
      split_ifs <;>
        simp [Dist.base_narrow, Dist.was_narrowed_from,
          Dist.get_current_narrowing_value, Dist.params, Dist.trace, Except.toOption]
  | randInt mn mx =>
      simp only [Dist.narrow_space_from_best_guess, Dist.choiceCopyPath,
        Bool.false_eq_true, if_false]
      split_ifs <;>
        simp [Dist.base_narrow, Dist.was_narrowed_from,
          Dist.get_current_narrowing_value, Dist.params, Dist.trace, Except.toOption]
  | normal m s cmin cmax =>
      simp [Dist.narrow_space_from_best_guess, Except.toOption]
  | logNormal m s cmin cmax =>
      simp only [Dist.narrow_space_from_best_guess, Dist.choiceCopyPath,
        Bool.false_eq_true, if_false]
      split_ifs <;>
        simp [Dist.base_narrow, Dist.was_narrowed_from,
          Dist.get_current_narrowing_value, Dist.params, Dist.trace, Except.toOption]
  | quantized hd =>
      simp only [Dist.narrow_space_from_best_guess, Dist.choiceCopyPath,
        Bool.false_eq_true, if_false]
      cases hd.narrow_space_from_best_guess g r with
      | error e => simp [Except.toOption]
      | ok nhd =>
          simp [Dist.base_narrow, Dist.was_narrowed_from,
            Dist.get_current_narrowing_value, Dist.params, Dist.trace, Except.toOption]

/-- C6: for every distribution `d` and every `best_guess` and
`kept_space_ratio` for which narrowing returns, the narrowed result's
`unnarrow` (the code's revert-to-original operation) equals `d.unnarrow`:
every successful narrowing path stores `d.unnarrow()` as the result's
original, so narrowing followed by revert recovers the pre-narrowing
distribution, no matter how often narrowing was chained. -/
theorem narrow_then_unnarrow (d : Dist) (g r : ℚ) :
    (Dist.narrow_space_from_best_guess d g r).toOption.map Dist.unnarrow
      = (Dist.narrow_space_from_best_guess d g r).toOption.map (fun _ => d.unnarrow) := by
  obtain ⟨p, t, o⟩ := d
  cases p with
  | choice l =>
      simp only [Dist.narrow_space_from_best_guess]
      split_ifs <;>
        simp [Dist.base_narrow, Dist.was_narrowed_from, Dist.unnarrow, Dist.params,
          Dist.trace, Except.toOption]
  | uniform mn mx =>
      simp only [Dist.narrow_space_from_best_guess]
      split_ifs <;>
        simp [Dist.base_narrow, Dist.was_narrowed_from, Dist.unnarrow, Dist.params,
          Dist.trace, Except.toOption]
  | randInt mn mx =>
      simp only [Dist.narrow_space_from_best_guess]
      split_ifs <;>
        simp [Dist.base_narrow, Dist.was_narrowed_from, Dist.unnarrow, Dist.params,
          Dist.trace, Except.toOption]
  | normal m s cmin cmax => simp [Dist.narrow_space_from_best_guess, Except.toOption]
  | logNormal m s cmin cmax =>
      simp only [Dist.narrow_space_from_best_guess]
      split_ifs <;>
        simp [Dist.base_narrow, Dist.was_narrowed_from, Dist.unnarrow, Dist.params,
          Dist.trace, Except.toOption]
  | quantized hd =>
      simp only [Dist.narrow_space_from_best_guess]
      cases hd.narrow_space_from_best_guess g r with
      | error e => simp [Except.toOption]
      | ok nhd =>
          simp [Dist.base_narrow, Dist.was_narrowed_from, Dist.unnarrow, Dist.params,
            Dist.trace, Except.toOption]
  | fixed v =>
      simp [Dist.narrow_space_from_best_guess, Dist.base_narrow, Dist.was_narrowed_from,
        Dist.unnarrow, Dist.params, Dist.trace, Except.toOption]
  | boolean =>
      simp [Dist.narrow_space_from_best_guess, Dist.base_narrow, Dist.was_narrowed_from,
        Dist.unnarrow, Dist.params, Dist.trace, Except.toOption]

/-- C9: for every `LogNormal` whose narrowed standard deviation
`log2_space_std * kept_space_ratio` is strictly positive,
`narrow_space_from_best_guess` returns a `Normal` (natural-space) instance —
not a `LogNormal` — constructed with mean
`log2_space_mean * r + best_guess * (1 - r)` and std `log2_space_std * r`
and the unchanged clip bounds (so sampling the result no longer applies
`2 ** draw`). -/
theorem logNormal_narrow_returns_normal (m s : ℚ) (cmin cmax tr : Option ℚ)
    (org : Option Dist) (g r : ℚ) (h : ¬ s * r ≤ 0) :
    Dist.narrow_space_from_best_guess (.mk (.logNormal m s cmin cmax) tr org) g r
      = .ok (.mk (Normal.init (m * r + g * (1 - r)) (s * r) cmin cmax) (some r)
          (some (Dist.unnarrow (.mk (.logNormal m s cmin cmax) tr org)))) := by
  simp [Dist.narrow_space_from_best_guess, h, Dist.was_narrowed_from, Dist.params,
    Dist.trace]

/-- C9 witness: the theorem applied to `LogNormal(0, 1)` with best guess `1`
and ratio `1/2`. -/
theorem logNormal_narrow_returns_normal_witness :
    ¬ (1 : ℚ) * (1/2) ≤ 0
    ∧ Dist.narrow_space_from_best_guess (.mk (.logNormal 0 1 none none) none none) 1 (1/2)
        = .ok (.mk (Normal.init (0 * (1/2) + 1 * (1 - 1/2)) (1 * (1/2)) none none)
            (some (1/2))
            (some (Dist.unnarrow (.mk (.logNormal 0 1 none none) none none)))) :=
  ⟨by norm_num,
    logNormal_narrow_returns_normal 0 1 none none none none 1 (1/2) (by norm_num)⟩

/-- C8: every sample lies in the declared support: for `a ≤ b` and a
`random.random()` draw `u ∈ [0,1)`, `Uniform(a,b).rvs() ∈ [min(a,b),
max(a,b)]`; `RandInt(a,b).rvs()` is an integer in `[a,b]` (the
`random.randint` guarantee, returned unchanged); `Choice(l).rvs()` is an
element of `l`; and `Quantized(Uniform(0,10)).rvs()` is an integer in
`[0,10]`. -/
theorem samples_within_support
    (a b u : ℚ) (am bm k : ℤ) (l : List ℚ) (i : Fin l.length) (u2 : ℚ)
    (hab : a ≤ b) (hu0 : 0 ≤ u) (hu1 : u < 1)
    (hk1 : am ≤ k) (hk2 : k ≤ bm) (hu20 : 0 ≤ u2) (hu21 : u2 < 1) :
    (min a b ≤ Uniform.rvs a b u ∧ Uniform.rvs a b u ≤ max a b)
    ∧ (am ≤ RandInt.rvs am bm k ∧ RandInt.rvs am bm k ≤ bm)
    ∧ Choice.rvs l i ∈ l
    ∧ (0 ≤ Quantized.rvs (Uniform.rvs 0 10 u2)
        ∧ Quantized.rvs (Uniform.rvs 0 10 u2) ≤ 10) := by
  refine ⟨⟨?_, ?_⟩, ⟨hk1, hk2⟩, ?_, ⟨?_, ?_⟩⟩
  · rw [min_eq_left hab]
    unfold Uniform.rvs
    nlinarith
  · rw [max_eq_right hab]
    unfold Uniform.rvs
    nlinarith
  · exact List.get_mem l i.val i.isLt
  · unfold Quantized.rvs
    refine le_trans ?_ (floor_le_pyRound _)
    rw [Int.le_floor]
    unfold Uniform.rvs
    push_cast
    nlinarith
  · unfold Quantized.rvs
    refine le_trans (pyRound_le_floor_add_one _) ?_
    have hfl : ⌊Uniform.rvs 0 10 u2⌋ < 10 := by
      rw [Int.floor_lt]
      unfold Uniform.rvs
      push_cast
      nlinarith
    omega

/-- C8 witness: the theorem applied to `Uniform(0,1)` with draw `0`,
`RandInt(0,1)` with draw `0`, `Choice([5])` at index `0`, and
`Quantized(Uniform(0,10))` with draw `0`. -/
theorem samples_within_support_witness :
    ((0:ℚ) ≤ 1) ∧ ((0:ℚ) ≤ 0) ∧ ((0:ℚ) < 1)
    ∧ ((0:ℤ) ≤ 0) ∧ ((0:ℤ) ≤ 1) ∧ ((0:ℚ) ≤ 0) ∧ ((0:ℚ) < 1)
    ∧ ((min (0:ℚ) 1 ≤ Uniform.rvs 0 1 0 ∧ Uniform.rvs 0 1 0 ≤ max 0 1)
      ∧ ((0:ℤ) ≤ RandInt.rvs 0 1 0 ∧ RandInt.rvs 0 1 0 ≤ 1)
      ∧ Choice.rvs [5] ⟨0, Nat.one_pos⟩ ∈ [(5:ℚ)]
      ∧ (0 ≤ Quantized.rvs (Uniform.rvs 0 10 0)
          ∧ Quantized.rvs (Uniform.rvs 0 10 0) ≤ 10)) :=
  ⟨by decide, by decide, by decide, by decide, by decide, by decide, by decide,
    samples_within_support 0 1 0 0 1 0 [5] ⟨0, Nat.one_pos⟩ 0
      (by decide) (by decide) (by decide) (by decide) (by decide) (by decide) (by decide)⟩

/-- Helper: `log2 8 = 3`. -/
theorem logb_two_eight : Real.logb 2 8 = 3 := by
  rw [show (8:ℝ) = 2^(3:ℕ) by norm_num, Real.logb_pow,
    Real.logb_self_eq_one one_lt_two]
  norm_num

/-- Helper: the machine epsilon is at most one. -/
theorem float_info_epsilon_le_one : float_info_epsilon ≤ 1 := by
  rw [float_info_epsilon]
  norm_num

/-- Helper: `LogUniform(1, 8)` stores the log2 attributes `(0, 3)`. -/
theorem logUniform_init_one_eight :
    LogUniform.init 1 8 = ⟨0, 3⟩ := by
  simp [LogUniform.init, logb_two_eight]

/-- C4 counterexample: narrowing `LogUniform(1, 8)` toward best guess `2`
with ratio `1/2` takes the non-collapsed path and the claimed
log2-interpolated lower value is `max(0 * 1/2 + 2 * 1/2, eps) = 1`, but the
returned instance is `LogUniform(1, 5/2)` — the constructor re-applies
`log2` — so its internal `log2_min_included` is `log2 1 = 0 ≠ 1`. -/
theorem logUniform_narrow_double_log_cex :
    LogUniform.narrow_space_from_best_guess (LogUniform.init 1 8) 2 (1/2)
      = .narrowed (LogUniform.init 1 (5/2))
    ∧ max ((LogUniform.init 1 8).log2_min_included * (1/2) + 2 * (1 - 1/2))
        float_info_epsilon = 1
    ∧ (LogUniform.init 1 (5/2)).log2_min_included = 0
    ∧ (0 : ℝ) ≠ 1 := by
  have hmax : max ((LogUniform.init 1 8).log2_min_included * (1/2) + 2 * (1 - 1/2))
      float_info_epsilon = 1 := by
    rw [logUniform_init_one_eight]
    rw [show (
      (⟨0, 3⟩ : LogUniform).log2_min_included * (1/2) + 2 * (1 - 1/2) : ℝ) = 1 by norm_num]
    exact max_eq_left float_info_epsilon_le_one
  refine ⟨?_, hmax, by simp [LogUniform.init], by norm_num⟩
  rw [logUniform_init_one_eight]
  simp only [LogUniform.narrow_space_from_best_guess]
  rw [show ((⟨0, 3⟩ : LogUniform).log2_min_included * (1/2) + 2 * (1 - 1/2) : ℝ) = 1
    by norm_num]
  rw [show ((⟨0, 3⟩ : LogUniform).log2_max_included * (1/2) + 2 * (1 - 1/2) : ℝ) = 5/2
    by norm_num]
  rw [max_eq_left float_info_epsilon_le_one]
  rw [if_neg (by norm_num)]

/-- C4 amended: on the non-collapsed path,
`LogUniform.narrow_space_from_best_guess(g, r)` returns the `LogUniform`
*constructed from* the log2-interpolated values
`max(lo*r + g*(1-r), eps)` and `hi*r + g*(1-r)` — so the result's internal
log2 bounds are `log2` of those values, the constructor re-applying `log2`;
and every `LogUniform(1, 8)` sample `2 ** u` with `u` uniform in the stored
log2 range `[0, 3]` lies in `[1, 8]`. -/
theorem logUniform_narrow_relogs (lo hi g r : ℝ)
    (h : ¬(hi * r + g * (1 - r) ≤ max (lo * r + g * (1 - r)) float_info_epsilon
          ∨ r = 0))
    (t : ℝ) (ht0 : 0 ≤ t) (ht1 : t ≤ 1) :
    LogUniform.narrow_space_from_best_guess ⟨lo, hi⟩ g r
      = .narrowed (LogUniform.init
          (max (lo * r + g * (1 - r)) float_info_epsilon) (hi * r + g * (1 - r)))
    ∧ 1 ≤ LogUniform.rvs (LogUniform.init 1 8) t
    ∧ LogUniform.rvs (LogUniform.init 1 8) t ≤ 8 := by
  refine ⟨?_, ?_, ?_⟩
  · simp only [LogUniform.narrow_space_from_best_guess]
    rw [if_neg h]
  · rw [logUniform_init_one_eight]
    show (1:ℝ) ≤ 2 ^ ((0:ℝ) + ((3:ℝ) - 0) * t)
    apply Real.one_le_rpow one_le_two
    nlinarith
  · rw [logUniform_init_one_eight]
    show (2:ℝ) ^ ((0:ℝ) + ((3:ℝ) - 0) * t) ≤ 8
    rw [show (8:ℝ) = 2 ^ ((3:ℕ):ℝ) by rw [Real.rpow_natCast]; norm_num]
    rw [Real.rpow_le_rpow_left_iff one_lt_two]
    push_cast
    nlinarith

/-- C4 witness: the theorem applied to the stored bounds `(0, 3)` of
`LogUniform(1, 8)` with best guess `2`, ratio `1/2`, and draw position
`0`. -/
theorem logUniform_narrow_relogs_witness :
    ¬((3:ℝ) * (1/2) + 2 * (1 - 1/2)
        ≤ max ((0:ℝ) * (1/2) + 2 * (1 - 1/2)) float_info_epsilon ∨ (1/2:ℝ) = 0)
    ∧ (0:ℝ) ≤ 0 ∧ (0:ℝ) ≤ 1
    ∧ (LogUniform.narrow_space_from_best_guess ⟨0, 3⟩ 2 (1/2)
        = .narrowed (LogUniform.init
            (max ((0:ℝ) * (1/2) + 2 * (1 - 1/2)) float_info_epsilon)
            ((3:ℝ) * (1/2) + 2 * (1 - 1/2)))
      ∧ 1 ≤ LogUniform.rvs (LogUniform.init 1 8) 0
      ∧ LogUniform.rvs (LogUniform.init 1 8) 0 ≤ 8) := by
  have hcond : ¬((3:ℝ) * (1/2) + 2 * (1 - 1/2)
      ≤ max ((0:ℝ) * (1/2) + 2 * (1 - 1/2)) float_info_epsilon ∨ (1/2:ℝ) = 0) := by
    rw [show ((0:ℝ) * (1/2) + 2 * (1 - 1/2)) = 1 by norm_num,
      max_eq_left float_info_epsilon_le_one]
    norm_num
  exact ⟨hcond, le_refl 0, zero_le_one,
    logUniform_narrow_relogs 0 3 2 (1/2) hcond 0 (le_refl 0) zero_le_one⟩

end Neuraxle
